import Mathlib

/-!
Verification of the stlrapps ATL mouth-animation generator (`src/vn.py`).

Shallow embedding conventions:
* Python floats are modelled as rationals (`ℚ`); Python `round` (banker's
  rounding, half to even) and fixed-point `format` are embedded explicitly.
* `pathlib.Path` values are modelled as strings; `.as_posix()` is the
  identity on these already-posix strings.
* The infinite `itertools.cycle([open, closed])` is modelled by a boolean
  cycle position: `true` means the next image drawn is the open mouth.
* The external `stlrcore.Transcription` collaborator is modelled as a
  structure carrying exactly the interface the generator consumes.
* The helpers from the repository's `src/utils.py` (not present in the
  sources) are modelled from the spec, as marked on each definition.
-/

attribute [local semireducible] Rat.add Rat.sub Rat.mul Rat.inv

set_option maxRecDepth 8000

namespace Stlr

/-- Python `round(x)` over ℚ: nearest integer, ties to even (banker's rounding). -/
def pyRoundQ (q : ℚ) : ℤ :=
  let fl := ⌊q⌋
  let frac := q - fl
  if frac < 1/2 then fl
  else if 1/2 < frac then fl + 1
  else if fl % 2 = 0 then fl else fl + 1

/-- Python `round(x, prec)` over ℚ. -/
def pyRound (q : ℚ) (prec : ℕ) : ℚ :=
  (pyRoundQ (q * (10 : ℚ) ^ prec) : ℚ) / (10 : ℚ) ^ prec

/-- Render the integer `n` as a decimal with `prec` digits after the point,
interpreting `n` as already scaled by `10 ^ prec`. -/
def decimalString (n : ℤ) (prec : ℕ) : String :=
  let sign := if n < 0 then "-" else ""
  let m := n.natAbs
  if prec = 0 then sign ++ toString m
  else
    let base := 10 ^ prec
    let ip := m / base
    let fp := m % base
    let fs := toString fp
    let fs := String.mk (List.replicate (prec - fs.length) '0') ++ fs
    sign ++ toString ip ++ "." ++ fs

/-- Python fixed-point formatting `f"x:.pf"` over ℚ. -/
def formatFixed (q : ℚ) (prec : ℕ) : String :=
  decimalString (pyRoundQ (q * (10 : ℚ) ^ prec)) prec

/-- Python percent formatting `f"x:.1%"` over ℚ. -/
def formatPercent (q : ℚ) : String :=
  formatFixed (q * 100) 1 ++ "%"

/-- Strip trailing decimal zeros of a scaled integer, keeping at least one
fractional digit (mirrors the shortest `repr` of a float that is an exact
short decimal). -/
def stripZeros : ℤ → ℕ → ℤ × ℕ
  | n, 0 => (n, 0)
  | n, (p+1) => if n % 10 = 0 then stripZeros (n / 10) p else (n, p+1)

/-- Python `repr`/`str` of the float `n / 10 ^ prec` (exact short decimals). -/
def pyFloatRepr (n : ℤ) (prec : ℕ) : String :=
  let s := stripZeros n prec
  if s.2 = 0 then decimalString s.1 0 ++ ".0" else decimalString s.1 s.2

/-- A single-quote character as a string (Python `repr` of a `str` wraps it
in single quotes). -/
def squote : String := String.mk [Char.ofNat 39]

/-- Python `str.rstrip()`: drop trailing whitespace. -/
def pyRstrip (s : String) : String :=
  String.mk (s.data.reverse.dropWhile Char.isWhitespace).reverse

/-- Python `str.split()` tokenization (split on whitespace runs, no empty
tokens), on character lists. -/
def splitWs : List Char → List Char → List (List Char)
  | [], acc => if acc.isEmpty then [] else [acc.reverse]
  | c :: cs, acc =>
    if c.isWhitespace then
      (if acc.isEmpty then splitWs cs [] else acc.reverse :: splitWs cs [])
    else splitWs cs (c :: acc)

/-- Numeric value of a digit list (most significant first). -/
def digitsVal (cs : List Char) : ℕ :=
  cs.foldl (fun acc c => acc * 10 + (c.toNat - 48)) 0

/-- Parse a decimal float literal (optional sign, digits, optional point):
the forms `float(...)` accepts for the tokens that occur in ATL scripts. -/
def parsePyFloat (cs : List Char) : Option ℚ :=
  let sign : ℚ := if cs.head? = some (Char.ofNat 45) then -1 else 1
  let cs := match cs with
    | '+' :: r => r
    | '-' :: r => r
    | r => r
  let intDigits := cs.takeWhile Char.isDigit
  let rest := cs.dropWhile Char.isDigit
  match rest with
  | [] => if intDigits.isEmpty then none else some (sign * digitsVal intDigits)
  | '.' :: r2 =>
    let fracDigits := r2.takeWhile Char.isDigit
    let rest2 := r2.dropWhile Char.isDigit
    if ¬rest2.isEmpty then none
    else if intDigits.isEmpty ∧ fracDigits.isEmpty then none
    else some (sign * ((digitsVal intDigits : ℚ) +
      (digitsVal fracDigits : ℚ) / (10 : ℚ) ^ fracDigits.length))
  | _ => none

/-- Modelled from the spec: `read_leading_float` from the repository's
`src/utils.py` (file not present in the sources). "Parses the first
whitespace-delimited token of a line as a float; returns none if the line is
empty or the token is not numeric." -/
def read_leading_float (line : String) : Option ℚ :=
  match splitWs line.data [] with
  | [] => none
  | tok :: _ => parsePyFloat tok

/-- Modelled from the spec: `get_space_prefix` from the repository's
`src/utils.py` (file not present in the sources). "Returns the leading run
of space characters in a line (possibly empty)." -/
def get_space_prefix (line : String) : String :=
  String.mk (line.data.takeWhile (fun c => c = ' '))

/-- Modelled from the spec: `frange` from the repository's `src/utils.py`
(file not present in the sources). "Produces a lazy, finite, restartable
sequence of floats `start, start+step, start+2*step, …` strictly less than
`stop`", with "count equal to `ceil((b−a)/step)`" for positive `step`;
over ℚ repeated addition agrees exactly with these multiples. -/
def frange (start stop step : ℚ) : List ℚ :=
  (List.range (if 0 < step then (⌈(stop - start) / step⌉).toNat else 0)).map
    (fun i => start + (i : ℚ) * step)

/-- `wait_tag` from `src/vn.py`: round to the given precision, return `""`
for a zero rounded value, else the textual tag `\x7bw=<value>\x7d`. -/
def wait_tag (seconds : ℚ) (precision : ℕ) : String :=
  let n := pyRoundQ (seconds * (10 : ℚ) ^ precision)
  if n = 0 then "" else "\x7bw=" ++ pyFloatRepr n precision ++ "\x7d"

/-- A word timing record from the external transcription collaborator. -/
structure WordTiming where
  word : String
  start : ℚ
  «end» : ℚ

/-- `WordTiming.duration`: length of the word in seconds. -/
def WordTiming.duration (w : WordTiming) : ℚ := w.«end» - w.start

/-- A silence-delimited segment from the external transcription collaborator. -/
structure Segment where
  start : ℚ
  duration : ℚ
  wait_after : ℚ

/-- The external `stlrcore.Transcription` collaborator, modelled as exactly
the interface `src/vn.py` consumes: the ordered word sequence, aggregate
duration/confidence numbers, per-word waits, segmenting, and its textual
rendering (used in header comments). -/
structure Transcription where
  words : List WordTiming
  duration : ℚ
  confidence : ℚ
  min_confidence : ℚ
  waits : List ℚ
  get_segments : ℚ → List Segment
  str : String

/-- `Transcription.start`: the first word's start, or 0. -/
def Transcription.start (t : Transcription) : ℚ :=
  match t.words with
  | [] => 0
  | w :: _ => w.start

/-- The `Indent` named tuple from `src/vn.py`. -/
structure Indent where
  initial : String
  full : String

/-- `get_indents` from `src/vn.py`. -/
def get_indents (initial_indent additional_indent : ℕ) : Indent :=
  let initial := String.mk (List.replicate initial_indent ' ')
  ⟨initial, initial ++ String.mk (List.replicate additional_indent ' ')⟩

/-- The `ATLImageGenerator` from `src/vn.py`. The infinite
`cycle([open_mouth, closed_mouth])` is modelled by `nextOpen`: `true` iff
the next image drawn from the cycle is the open mouth. `atl` is the stored
script text `_atl`. -/
structure ATLImageGenerator where
  image_name : String
  transcription : Transcription
  open_mouth : String
  closed_mouth : String
  frame_length : ℚ
  indents : Indent
  nextOpen : Bool
  atl : String

/-- `ATLImageGenerator.__init__`: the cycle starts at the open mouth and the
stored script text starts empty. -/
def ATLImageGenerator.init (image_name : String) (transcription : Transcription)
    (open_mouth closed_mouth : String) (frame_length : ℚ)
    (initial_indent additional_indent : ℕ) : ATLImageGenerator :=
  { image_name, transcription, open_mouth, closed_mouth, frame_length,
    indents := get_indents initial_indent additional_indent,
    nextOpen := true, atl := "" }

/-- Stable insertion (by time key) used to model Python's stable `list.sort`
with `key=lambda item: item[1]`. -/
def insertByTime (x : String × ℚ × String) :
    List (String × ℚ × String) → List (String × ℚ × String)
  | [] => [x]
  | y :: ys => if y.2.1 ≤ x.2.1 then y :: insertByTime x ys else x :: y :: ys

/-- Stable sort by time key (equal keys keep their original order, as in
Python's `list.sort`). -/
def pySort (l : List (String × ℚ × String)) : List (String × ℚ × String) :=
  l.foldl (fun acc x => insertByTime x acc) []

/-- `ATLImageGenerator.annotate` from `src/vn.py`. -/
def annotate (g : ATLImageGenerator) (start «end» : ℚ) (verbose assisted : Bool) :
    String :=
  if assisted ∧ ¬verbose then ""
  else
    let starts := (g.transcription.words.filter
        fun t => decide (start ≤ t.start ∧ t.start < «end»)).map
      fun t => (t.word, t.start, "start")
    let boundaries := pySort starts
    if ¬verbose then
      let ann := String.intercalate " |" (boundaries.map fun b => b.1)
      if ann = "" then "" else "  # " ++ ann
    else
      let ends := (g.transcription.words.filter
          fun t => decide (start < t.«end» ∧ t.«end» ≤ «end»)).map
        fun t => (t.word, t.«end», "end")
      let bs := pySort (boundaries ++ ends)
      let header := "  # animation time: " ++ formatFixed start 3 ++ " → " ++
        formatFixed «end» 3 ++ " "
      let items := String.intercalate " " (bs.map fun b =>
        "| " ++ squote ++ b.1 ++ squote ++ " [" ++ b.2.2 ++ " @ " ++
          formatFixed b.2.1 2 ++ "]")
      pyRstrip (header ++ items)

/-- The image the cycle yields next when its position is `st`. -/
def imageNext (g : ATLImageGenerator) (st : Bool) : String :=
  if st then g.open_mouth else g.closed_mouth

/-- Cycle position after drawing `k` images starting from position `st`. -/
def advance (st : Bool) (k : ℕ) : Bool :=
  if k % 2 = 0 then st else !st

/-- The `i`-th image drawn from the cycle starting at position `st`. -/
def imageAt (g : ATLImageGenerator) (st : Bool) (i : ℕ) : String :=
  imageNext g (advance st i)

/-- The loop of `ATLImageGenerator.alternate_frames_for_duration`: for each
time point of `frange`, paired with the next image of the cycle, an
image-literal line and a delay line. Note that the delay line renders
`self.frame_length`, not `time_step`. -/
def altLoopLines (g : ATLImageGenerator) (st : Bool)
    (duration start time_step : ℚ) (verbose : Bool) : List String :=
  (frange start (start + duration) time_step).enum.flatMap fun p =>
    [g.indents.full ++ "\"" ++ imageAt g st p.1 ++ "\"",
     g.indents.full ++ formatFixed g.frame_length 3 ++
       annotate g p.2 (p.2 + time_step) verbose false]

/-- The value of the loop variable `image` after the loop of
`alternate_frames_for_duration` (`none` iff the loop ran zero iterations). -/
def altLastImage (g : ATLImageGenerator) (st : Bool)
    (duration start time_step : ℚ) : Option String :=
  if (frange start (start + duration) time_step).length = 0 then none
  else some (imageAt g st ((frange start (start + duration) time_step).length - 1))

/-- `ATLImageGenerator.alternate_frames_for_duration` from `src/vn.py`.
Returns the emitted lines, the last image reached by the loop, and the new
cycle position. -/
def alternate_frames_for_duration (g : ATLImageGenerator) (st : Bool)
    (duration start time_step : ℚ) (ensure_close verbose : Bool) :
    List String × Option String × Bool :=
  let lines := altLoopLines g st duration start time_step verbose
  let image := altLastImage g st duration start time_step
  let st1 := advance st (frange start (start + duration) time_step).length
  if ensure_close ∧ image ≠ some g.closed_mouth then
    (lines ++ [g.indents.full ++ "\"" ++ imageNext g st1 ++ "\""], image, !st1)
  else
    (lines, image, st1)

/-- The per-segment body of the loop in
`ATLImageGenerator.generate_fixed_aligned_atl` from `src/vn.py`: ceiling
the segment duration to whole frames, emit the alternating frames, and emit
a pause block when the wait after the segment exceeds the overstep. -/
def fixedSegmentLines (g : ATLImageGenerator) (st : Bool) (frame_length : ℚ)
    (verbose : Bool) (segment : Segment) : List String × Bool :=
  let duration := (⌈segment.duration / frame_length⌉ : ℚ) * frame_length
  let overstep := duration - segment.duration
  let r := alternate_frames_for_duration g st duration segment.start frame_length
    true verbose
  let wait := segment.wait_after - overstep
  (r.1 ++ (if 0 < wait
    then ["", g.indents.full ++ formatFixed wait 2 ++ "  # pause", ""]
    else []), r.2.2)

/-- `ATLImageGenerator.generate_fixed_aligned_atl` from `src/vn.py`. Returns
the generated text and the updated generator; the result is stored in the
generator's `atl` before being returned. -/
def generate_fixed_aligned_atl (g : ATLImageGenerator) (frame_length : ℚ)
    (verbose : Bool) : String × ATLImageGenerator :=
  let header := [
    g.indents.initial ++ "image " ++ g.image_name ++ ":",
    g.indents.full ++ "# " ++ g.transcription.str,
    g.indents.full ++ "# length: " ++ formatFixed g.transcription.duration 3 ++
      " seconds",
    g.indents.full ++ "# confidence: " ++ formatPercent g.transcription.confidence ++
      " (min: " ++ formatPercent g.transcription.min_confidence ++ ")"]
  let step := (g.transcription.get_segments frame_length).foldl
    (fun (acc : List String × Bool) seg =>
      let r := fixedSegmentLines g acc.2 frame_length verbose seg
      (acc.1 ++ r.1, r.2))
    (header, g.nextOpen)
  let out := String.intercalate "\n" step.1
  (out, { g with nextOpen := step.2, atl := out })

/-- The per-word frame length computed by
`ATLImageGenerator._generate_word_aligned_block` from `src/vn.py`:
`word.duration / max(round(word.duration / self.frame_length), 1)`. -/
def wordFrameLength (g : ATLImageGenerator) (word : WordTiming) : ℚ :=
  word.duration / ((max (pyRoundQ (word.duration / g.frame_length)) 1 : ℤ) : ℚ)

/-- `ATLImageGenerator._generate_word_aligned_block` from `src/vn.py`. -/
def generate_word_aligned_block (g : ATLImageGenerator) (st : Bool)
    (word : WordTiming) (verbose : Bool) : List String × Bool :=
  let frame_length := wordFrameLength g word
  let r := alternate_frames_for_duration g st word.duration word.start frame_length
    true verbose
  let pre := g.indents.full ++ "# ↓ --- " ++ word.word ++ " (duration: " ++
    formatFixed word.duration 2 ++ "s) --- ↓"
  let post := g.indents.full ++ "# ↑ --- " ++ word.word ++ " --- ↑"
  (pre :: r.1 ++ [post], r.2.2)

/-- Python `repr` of a float that is an exact decimal, used for the start
offset line of the word-aligned header. -/
def pyRepr (q : ℚ) : String :=
  match (List.range 18).find? (fun k => (q * (10 : ℚ) ^ k).den == 1) with
  | some 0 => decimalString q.num 0 ++ ".0"
  | some k => decimalString (q * (10 : ℚ) ^ k).num k
  | none => decimalString q.num 0 ++ "/" ++ toString q.den

/-- `ATLImageGenerator.generate_word_aligned_atl` from `src/vn.py`. Returns
the generated text and the updated generator; the stored `atl` is not
modified by this method. -/
def generate_word_aligned_atl (g : ATLImageGenerator) (verbose : Bool) :
    String × ATLImageGenerator :=
  let header := [
    g.indents.initial ++ "image " ++ g.image_name ++ ":",
    g.indents.full ++ "# " ++ g.transcription.str,
    g.indents.full ++ "# length: " ++ formatFixed g.transcription.duration 2 ++
      " seconds",
    g.indents.full ++ "# confidence: " ++ formatPercent g.transcription.confidence ++
      " (min: " ++ formatPercent g.transcription.min_confidence ++ ")",
    g.indents.full ++ "\"" ++ g.closed_mouth ++ "\"",
    g.indents.full ++ pyRepr g.transcription.start]
  let step := (g.transcription.words.zip g.transcription.waits).foldl
    (fun (acc : List String × Bool) p =>
      let r := generate_word_aligned_block g acc.2 p.1 verbose
      (acc.1 ++ r.1 ++
        (if p.2 ≠ 0
          then ["", g.indents.full ++ formatFixed p.2 3 ++ "  # (pause)", ""]
          else []), r.2))
    (header, g.nextOpen)
  (String.intercalate "\n" step.1, { g with nextOpen := step.2 })

/-- The line-by-line loop of `ATLImageGenerator.reannotate` from
`src/vn.py`, including the `for … else` extension clause: non-delay lines
pass through unchanged, delay lines are re-rendered at 2 decimals with a
recomputed annotation, consumption stops once the accumulated time reaches
the transcription duration, and an exhausted input short of that duration
is extended with alternating frames. -/
def reannotateLines (g : ATLImageGenerator) (verbose : Bool) :
    Bool → List String → ℚ → List String × Bool
  | st, [], time =>
    if time < g.transcription.duration then
      let r := alternate_frames_for_duration g st (g.transcription.duration - time)
        time g.frame_length true verbose
      (r.1, r.2.2)
    else ([], st)
  | st, line :: rest, time =>
    match read_leading_float line with
    | none =>
      let r := reannotateLines g verbose st rest time
      (line :: r.1, r.2)
    | some pause =>
      let out := get_space_prefix line ++ formatFixed pause 2 ++
        annotate g time (time + pause) verbose false
      if g.transcription.duration ≤ time + pause then ([out], st)
      else
        let r := reannotateLines g verbose st rest (time + pause)
        (out :: r.1, r.2)

/-- Splitting into lines on newline characters (Python `str.splitlines` for
`\n`-separated text). -/
def splitlinesGo : List Char → List Char → List (List Char)
  | [], acc => [acc.reverse]
  | c :: cs, acc =>
    if c = '\n' then acc.reverse :: splitlinesGo cs [] else splitlinesGo cs (c :: acc)

/-- Python `str.splitlines` restricted to `\n` separators. -/
def pySplitlines (s : String) : List String :=
  if s.data.isEmpty then []
  else
    let parts := splitlinesGo s.data []
    (if s.data.getLast? = some '\n' then parts.dropLast else parts).map String.mk

/-- `ATLImageGenerator.reannotate` from `src/vn.py`. -/
def reannotate (g : ATLImageGenerator) (atl : String) (verbose : Bool) :
    String × ATLImageGenerator :=
  let r := reannotateLines g verbose g.nextOpen (pySplitlines atl) 0
  (String.intercalate "\n" r.1, { g with nextOpen := r.2 })

/-! ### Concrete fixtures used in witnesses and counterexamples -/

/-- A one-word transcription: "hi" spoken over [0, 0.2], total duration 0.2s,
one segment, no trailing wait. -/
def tEx : Transcription :=
  { words := [⟨"hi", 0, 1/5⟩], duration := 1/5, confidence := 1,
    min_confidence := 1, waits := [0],
    get_segments := fun _ => [⟨0, 1/5, 0⟩], str := "hi" }

/-- A generator over `tEx` with frame length 0.2s and indents (4, 4). -/
def gEx : ATLImageGenerator :=
  ATLImageGenerator.init "talk" tEx "open.png" "closed.png" (1/5) 4 4

/-- The generator state after a fixed-aligned generation on `gEx`
(the state `reannotate` would run with in the application). -/
def gEx2 : ATLImageGenerator := (generate_fixed_aligned_atl gEx (1/5) false).2

/-- An empty transcription of duration 0.47s (annotations come out empty). -/
def tC1 : Transcription :=
  { words := [], duration := 47/100, confidence := 1, min_confidence := 1,
    waits := [], get_segments := fun _ => [], str := "" }

/-- A generator over `tC1` with frame length 0.2s and no indentation. -/
def gC1 : ATLImageGenerator :=
  ATLImageGenerator.init "talk" tC1 "open.png" "closed.png" (1/5) 0 0

/-! ### Helper lemmas -/

/-- Cycle position flips with each draw. -/
theorem advance_succ (st : Bool) (k : ℕ) : advance st (k + 1) = !(advance st k) := by
  unfold advance
  rcases Nat.mod_two_eq_zero_or_one k with h | h <;> simp [Nat.add_mod, h]

/-- Without `ensure_close`, `alternate_frames_for_duration` returns exactly
the loop lines, last image and advanced cycle position. -/
theorem alternate_no_close (g : ATLImageGenerator) (st : Bool) (d s ts : ℚ)
    (vb : Bool) :
    alternate_frames_for_duration g st d s ts false vb =
      (altLoopLines g st d s ts vb, altLastImage g st d s ts,
        advance st (frange s (s + d) ts).length) := by
  unfold alternate_frames_for_duration
  rw [if_neg]
  simp

/-- With `ensure_close`, when the loop's last image is the closed mouth,
nothing is appended. -/
theorem alternate_close_of_closed (g : ATLImageGenerator) (st : Bool)
    (d s ts : ℚ) (vb : Bool)
    (h : altLastImage g st d s ts = some g.closed_mouth) :
    alternate_frames_for_duration g st d s ts true vb =
      (altLoopLines g st d s ts vb, altLastImage g st d s ts,
        advance st (frange s (s + d) ts).length) := by
  unfold alternate_frames_for_duration
  rw [if_neg]
  simp [h]

/-- With `ensure_close`, when the loop's last image is not the closed mouth,
exactly one extra image-literal line (the next image of the cycle) is
appended and the cycle advances once more. -/
theorem alternate_close_of_open (g : ATLImageGenerator) (st : Bool)
    (d s ts : ℚ) (vb : Bool)
    (h : altLastImage g st d s ts ≠ some g.closed_mouth) :
    alternate_frames_for_duration g st d s ts true vb =
      (altLoopLines g st d s ts vb ++
        [g.indents.full ++ "\"" ++
          imageNext g (advance st (frange s (s + d) ts).length) ++ "\""],
        altLastImage g st d s ts,
        !(advance st (frange s (s + d) ts).length)) := by
  unfold alternate_frames_for_duration
  rw [if_pos]
  exact ⟨rfl, h⟩

/-- The re-annotation loop reproduces, at the same index, every input line
whose leading token does not parse as a float. -/
theorem reannotateLines_keep_nondelay (g : ATLImageGenerator) (vb st : Bool) :
    ∀ (input : List String) (time : ℚ) (i : ℕ) (u : String),
      input[i]? = some u →
      read_leading_float u = none →
      i < (reannotateLines g vb st input time).1.length →
      ((reannotateLines g vb st input time).1)[i]? = some u := by
  intro input
  induction input with
  | nil =>
    intro time i u hu _ _
    simp at hu
  | cons line rest ih =>
    intro time i u hu hnone hlen
    cases hp : read_leading_float line with
    | none =>
      cases i with
      | zero =>
        simp at hu
        subst hu
        simp [reannotateLines, hp]
      | succ j =>
        simp only [List.getElem?_cons_succ] at hu
        simp only [reannotateLines, hp, List.getElem?_cons_succ]
        apply ih time j u hu hnone
        simp only [reannotateLines, hp] at hlen
        simpa using hlen
    | some p =>
      cases i with
      | zero =>
        simp at hu
        rw [hu] at hp
        rw [hnone] at hp
        exact absurd hp (by simp)
      | succ j =>
        simp only [List.getElem?_cons_succ] at hu
        simp only [reannotateLines, hp] at hlen ⊢
        by_cases hc : g.transcription.duration ≤ time + p
        · rw [if_pos hc] at hlen
          simp at hlen
        · rw [if_neg hc] at hlen ⊢
          simp only [List.getElem?_cons_succ]
          apply ih (time + p) j u hu hnone
          simpa using hlen

/-! ### Claim theorems -/

/-- C1: the delay line emitted by each loop iteration of
`alternate_frames_for_duration` renders the generator's `frame_length`, not
the call's `time_step`. At the word-aligned failing input (a 0.47s word on a
generator configured at 0.2s, hence `time_step = 0.235`), the two delay
lines read "0.200", while a `time_step` rendering would read "0.235". -/
theorem C1_delay_line_renders_generator_frame_length :
    (alternate_frames_for_duration gC1 true (47/100) 0 (47/200) true false).1 =
      ["\"open.png\"", "0.200", "\"closed.png\"", "0.200"] ∧
    formatFixed ((47:ℚ)/200) 3 = "0.235" ∧
    formatFixed gC1.frame_length 3 = "0.200" := by
  refine ⟨by decide, by decide, by decide⟩

/-- C2 (counterexample): fixed-aligned generation with `verbose=False`
followed by `reannotate` on its own output (same verbosity, same frame
length, the post-generation generator state) is not byte-identical: the
frame delay line "        0.200  # hi" is re-rendered as
"        0.20  # hi", and the trailing forced-close image line is dropped
because the accumulated time reaches the transcription duration. -/
theorem C2_reannotate_roundtrip_not_identical :
    (reannotate gEx2 (generate_fixed_aligned_atl gEx (1/5) false).1 false).1 ≠
      (generate_fixed_aligned_atl gEx (1/5) false).1 := by
  decide

/-- C2 (amended): the round trip agrees with its input on every line whose
leading token does not parse as a float: any such input line is reproduced
byte-identically at the same index of the re-annotation loop's output.
(Byte-identity of the whole output fails in general: delay lines are
re-rendered at 2 decimals and lines past the duration cutoff are dropped.) -/
theorem C2_roundtrip_preserves_nondelay_lines :
    ∀ (g g2 : ATLImageGenerator) (fl : ℚ) (i : ℕ) (u : String),
      (pySplitlines (generate_fixed_aligned_atl g fl false).1)[i]? = some u →
      read_leading_float u = none →
      i < (reannotateLines g2 false g2.nextOpen
            (pySplitlines (generate_fixed_aligned_atl g fl false).1) 0).1.length →
      ((reannotateLines g2 false g2.nextOpen
        (pySplitlines (generate_fixed_aligned_atl g fl false).1) 0).1)[i]? = some u :=
  fun _ g2 _ i u hu hnone hlen =>
    reannotateLines_keep_nondelay g2 false g2.nextOpen _ 0 i u hu hnone hlen

/-- C2 (witness): on the concrete one-word example, the header line of the
generated script has no leading float and is reproduced unchanged at index
0 of the re-annotated output. -/
theorem C2_roundtrip_witness :
    ((reannotateLines gEx2 false gEx2.nextOpen
      (pySplitlines (generate_fixed_aligned_atl gEx (1/5) false).1) 0).1)[0]? =
      some "    image talk:" :=
  C2_roundtrip_preserves_nondelay_lines gEx gEx2 (1/5) 0 "    image talk:"
    (by decide) (by decide) (by decide)

/-- C4: in word-aligned generation the per-word frame length is
`word.duration / max(round(word.duration / frame_length), 1)`: the
denominator is at least 1 (so the division is never by zero), the frames
exactly cover the word's duration, the block generator steps at this
per-word frame length, and a 0.47s word at configured frame length 0.2s
gets per-word frame length 0.235s (two frames). -/
theorem C4_word_frame_length_fitting :
    (∀ (g : ATLImageGenerator) (w : WordTiming),
      1 ≤ max (pyRoundQ (w.duration / g.frame_length)) 1 ∧
      wordFrameLength g w *
        ((max (pyRoundQ (w.duration / g.frame_length)) 1 : ℤ) : ℚ) = w.duration) ∧
    (∀ (g : ATLImageGenerator) (st : Bool) (w : WordTiming) (vb : Bool),
      (generate_word_aligned_block g st w vb).1 =
        (g.indents.full ++ "# ↓ --- " ++ w.word ++ " (duration: " ++
            formatFixed w.duration 2 ++ "s) --- ↓") ::
          (alternate_frames_for_duration g st w.duration w.start
            (wordFrameLength g w) true vb).1 ++
          [g.indents.full ++ "# ↑ --- " ++ w.word ++ " --- ↑"]) ∧
    wordFrameLength gC1 ⟨"x", 0, 47/100⟩ = 47/200 ∧
    max (pyRoundQ (((47:ℚ)/100) / (1/5))) 1 = 2 := by
  refine ⟨fun g w => ⟨le_max_right _ _, ?_⟩, fun g st w vb => rfl, by decide, by decide⟩
  have h1 : (1:ℤ) ≤ max (pyRoundQ (w.duration / g.frame_length)) 1 := le_max_right _ _
  have hne : ((max (pyRoundQ (w.duration / g.frame_length)) 1 : ℤ) : ℚ) ≠ 0 := by
    have : (max (pyRoundQ (w.duration / g.frame_length)) 1 : ℤ) ≠ 0 := by omega
    exact_mod_cast this
  unfold wordFrameLength
  exact div_mul_cancel₀ _ hne

/-- C5: for every segment of the fixed-aligned generation, the frame-stepped
duration is `ceil(duration / frame_length) * frame_length`, the overstep is
that minus the actual duration, and a pause block (blank line, 2-decimal
pause line with a "# pause" comment, blank line) is emitted iff
`wait_after - overstep` is strictly positive, with exactly that value; a
0.9s segment at frame length 0.2 rounds to 1.0s with overstep 0.1s. -/
theorem C5_segment_rounding_and_pause :
    (∀ (g : ATLImageGenerator) (st : Bool) (fl : ℚ) (vb : Bool) (seg : Segment),
      fixedSegmentLines g st fl vb seg =
        ((alternate_frames_for_duration g st ((⌈seg.duration / fl⌉ : ℚ) * fl)
            seg.start fl true vb).1 ++
          (if 0 < seg.wait_after - ((⌈seg.duration / fl⌉ : ℚ) * fl - seg.duration)
            then ["", g.indents.full ++
              formatFixed (seg.wait_after -
                ((⌈seg.duration / fl⌉ : ℚ) * fl - seg.duration)) 2 ++ "  # pause", ""]
            else []),
          (alternate_frames_for_duration g st ((⌈seg.duration / fl⌉ : ℚ) * fl)
            seg.start fl true vb).2.2)) ∧
    ((⌈((9:ℚ)/10) / (1/5)⌉ : ℚ) * (1/5) = 1) ∧
    ((⌈((9:ℚ)/10) / (1/5)⌉ : ℚ) * (1/5) - 9/10 = 1/10) := by
  refine ⟨fun g st fl vb seg => rfl, by decide, by decide⟩

/-- C8: `wait_tag` returns "" exactly when the seconds value rounded to the
given precision is zero, and otherwise the tag `\x7bw=<rounded value>\x7d`;
in particular `wait_tag 0 = ""`, `wait_tag 0.004 (precision 2) = ""` and
`wait_tag 0.5 = "\x7bw=0.5\x7d"`. -/
theorem C8_wait_tag_zero_iff :
    (∀ (s : ℚ) (p : ℕ),
      (pyRound s p = 0 → wait_tag s p = "") ∧
      (pyRound s p ≠ 0 →
        wait_tag s p =
          "\x7bw=" ++ pyFloatRepr (pyRoundQ (s * (10 : ℚ) ^ p)) p ++ "\x7d")) ∧
    wait_tag 0 2 = "" ∧ wait_tag (1/250) 2 = "" ∧
    wait_tag (1/2) 2 = "\x7bw=0.5\x7d" := by
  refine ⟨fun s p => ⟨fun h => ?_, fun h => ?_⟩, by decide, by decide, by decide⟩
  · have h10 : ((10 : ℚ) ^ p) ≠ 0 := by positivity
    unfold pyRound at h
    rcases div_eq_zero_iff.mp h with h' | h'
    · have hn : pyRoundQ (s * (10 : ℚ) ^ p) = 0 := by exact_mod_cast h'
      simp [wait_tag, hn]
    · exact absurd h' h10
  · have hn : pyRoundQ (s * (10 : ℚ) ^ p) ≠ 0 := by
      intro hc
      apply h
      unfold pyRound
      rw [hc]
      simp
    simp [wait_tag, hn]

/-- C8 (witness): the general characterization applied at 0.5s, precision 2. -/
theorem C8_wait_tag_witness :
    pyRound (1/2) 2 ≠ 0 ∧ wait_tag (1/2) 2 = "\x7bw=0.5\x7d" :=
  ⟨by decide,
    ((C8_wait_tag_zero_iff.1 (1/2) 2).2 (by decide)).trans (by decide)⟩

/-- C9: `generate_fixed_aligned_atl` stores its result as the generator's
current script text before returning it, while `generate_word_aligned_atl`
leaves the stored script text exactly as it was before the call. -/
theorem C9_fixed_stores_word_does_not :
    ∀ (g : ATLImageGenerator) (fl : ℚ) (vb : Bool),
      ((generate_fixed_aligned_atl g fl vb).2).atl =
        (generate_fixed_aligned_atl g fl vb).1 ∧
      ((generate_word_aligned_atl g vb).2).atl = g.atl :=
  fun _ _ _ => ⟨rfl, rfl⟩

/-- C3: with `ensure_close` set (and distinct open/closed images), the
returned last image is the one reached by the alternation loop (identical
to an `ensure_close=False` run); if that last image is the closed mouth no
extra line is appended, and if it is the open mouth exactly one extra
image-literal line showing the closed mouth (the next image of the cycle)
is appended after the loop's lines. -/
theorem C3_ensure_close_appends_one_close :
    ∀ (g : ATLImageGenerator) (st : Bool) (d s ts : ℚ) (vb : Bool),
      g.open_mouth ≠ g.closed_mouth →
      ((alternate_frames_for_duration g st d s ts true vb).2.1 =
        (alternate_frames_for_duration g st d s ts false vb).2.1) ∧
      ((alternate_frames_for_duration g st d s ts false vb).2.1 =
          some g.closed_mouth →
        (alternate_frames_for_duration g st d s ts true vb).1 =
          (alternate_frames_for_duration g st d s ts false vb).1) ∧
      ((alternate_frames_for_duration g st d s ts false vb).2.1 =
          some g.open_mouth →
        (alternate_frames_for_duration g st d s ts true vb).1 =
          (alternate_frames_for_duration g st d s ts false vb).1 ++
            [g.indents.full ++ "\"" ++ g.closed_mouth ++ "\""]) := by
  intro g st d s ts vb hne
  by_cases hcl : altLastImage g st d s ts = some g.closed_mouth
  · rw [alternate_close_of_closed g st d s ts vb hcl,
      alternate_no_close g st d s ts vb]
    refine ⟨rfl, fun _ => rfl, fun hop => ?_⟩
    have hoc : some g.closed_mouth = some g.open_mouth := hcl.symm.trans hop
    injection hoc with hoc
    exact absurd hoc.symm hne
  · rw [alternate_close_of_open g st d s ts vb hcl,
      alternate_no_close g st d s ts vb]
    refine ⟨rfl, fun hcl2 => absurd hcl2 hcl, fun hop => ?_⟩
    have hcls : imageNext g (advance st (frange s (s + d) ts).length) =
        g.closed_mouth := by
      have hop' : altLastImage g st d s ts = some g.open_mouth := hop
      unfold altLastImage at hop'
      rcases hk : (frange s (s + d) ts).length with _ | m
      · rw [hk] at hop'
        simp at hop'
      · rw [hk, if_neg (Nat.succ_ne_zero m)] at hop'
        simp only [Nat.add_sub_cancel, Option.some.injEq] at hop'
        rw [advance_succ]
        unfold imageAt at hop'
        rcases Bool.eq_false_or_eq_true (advance st m) with hb | hb
        · rw [hb]
          simp [imageNext]
        · rw [hb] at hop'
          simp only [imageNext, Bool.false_eq_true, if_false] at hop'
          exact absurd hop'.symm hne
    rw [hcls]

/-- C3 (witness): one loop iteration on the example generator ends on the
open mouth; the close-ensured run appends exactly the closed-mouth line and
still reports the open mouth as the last image reached. -/
theorem C3_ensure_close_witness :
    (alternate_frames_for_duration gEx true (1/5) 0 (1/5) true false).1 =
      (alternate_frames_for_duration gEx true (1/5) 0 (1/5) false false).1 ++
        ["        \"closed.png\""] ∧
    (alternate_frames_for_duration gEx true (1/5) 0 (1/5) true false).2.1 =
      some "open.png" := by
  have h := C3_ensure_close_appends_one_close gEx true (1/5) 0 (1/5) false
    (by decide)
  exact ⟨(h.2.2 (by decide)).trans (by decide), h.1.trans (by decide)⟩

/-- C10: after any `ensure_close` call of `alternate_frames_for_duration`
whose loop ran at least one iteration, the cycle is positioned so that the
next image drawn equals the open-mouth image. -/
theorem C10_cycle_positioned_open :
    ∀ (g : ATLImageGenerator) (st : Bool) (d s ts : ℚ) (vb : Bool),
      (frange s (s + d) ts).length ≠ 0 →
      imageNext g (alternate_frames_for_duration g st d s ts true vb).2.2 =
        g.open_mouth := by
  intro g st d s ts vb hk
  rcases hlen : (frange s (s + d) ts).length with _ | m
  · exact absurd hlen hk
  by_cases hcl : altLastImage g st d s ts = some g.closed_mouth
  · rw [alternate_close_of_closed g st d s ts vb hcl]
    unfold altLastImage at hcl
    rw [hlen, if_neg (Nat.succ_ne_zero m)] at hcl
    simp only [Nat.add_sub_cancel, Option.some.injEq] at hcl
    unfold imageAt at hcl
    show imageNext g (advance st (frange s (s + d) ts).length) = g.open_mouth
    rw [hlen, advance_succ]
    rcases Bool.eq_false_or_eq_true (advance st m) with hb | hb
    · rw [hb] at hcl ⊢
      simp only [imageNext, if_pos rfl] at hcl
      simp only [Bool.not_true, imageNext, Bool.false_eq_true, if_false]
      exact hcl.symm
    · rw [hb]
      simp [imageNext]
  · rw [alternate_close_of_open g st d s ts vb hcl]
    unfold altLastImage at hcl
    rw [hlen, if_neg (Nat.succ_ne_zero m)] at hcl
    simp only [Nat.add_sub_cancel, ne_eq, Option.some.injEq] at hcl
    unfold imageAt at hcl
    show imageNext g (!(advance st (frange s (s + d) ts).length)) = g.open_mouth
    rw [hlen, advance_succ, Bool.not_not]
    rcases Bool.eq_false_or_eq_true (advance st m) with hb | hb
    · rw [hb]
      simp [imageNext]
    · rw [hb] at hcl
      simp [imageNext] at hcl

/-- C6: the re-annotation loop (a) stops consuming input as soon as the
accumulated time plus the current delay reaches the transcription's total
duration, emitting only the re-rendered delay line and dropping every
remaining input line; (b) on exhausted input with time still short of the
total duration, appends alternating frames for the remaining
`duration - time` at the generator's configured frame length; (c) on
exhausted input at or past the total duration, appends nothing. -/
theorem C6_reannotate_cutoff_and_extension :
    ∀ (g : ATLImageGenerator) (vb st : Bool) (time : ℚ),
      (∀ (line : String) (rest : List String) (p : ℚ),
        read_leading_float line = some p →
        g.transcription.duration ≤ time + p →
        (reannotateLines g vb st (line :: rest) time).1 =
          [ get_space_prefix line ++ formatFixed p 2 ++
            annotate g time (time + p) vb false]) ∧
      (time < g.transcription.duration →
        (reannotateLines g vb st [] time).1 =
          (alternate_frames_for_duration g st (g.transcription.duration - time)
            time g.frame_length true vb).1) ∧
      (g.transcription.duration ≤ time →
        (reannotateLines g vb st [] time).1 = []) := by
  intro g vb st time
  refine ⟨fun line rest p hp hge => ?_, fun hlt => ?_, fun hge => ?_⟩
  · simp only [reannotateLines, hp]
    rw [if_pos hge]
  · simp only [reannotateLines]
    rw [if_pos hlt]
  · simp only [reannotateLines]
    rw [if_neg (not_lt.mpr hge)]

/-- C6 (witness): on the example generator (duration 0.2s), a delay line of
0.5s crosses the cutoff, so the following input line is dropped; an
exhausted input at time 0 is extended with alternating frames up to 0.2s;
an exhausted input at time 0.2 is extended with nothing. -/
theorem C6_reannotate_witness :
    (reannotateLines gEx false true ["0.5", "junk"] 0).1 = ["0.50  # hi"] ∧
    (reannotateLines gEx false true [] 0).1 =
      ["        \"open.png\"", "        0.200  # hi", "        \"closed.png\""] ∧
    (reannotateLines gEx false true [] (1/5)).1 = [] := by
  refine ⟨?_, ?_, ?_⟩
  · have h := (C6_reannotate_cutoff_and_extension gEx false true 0).1 "0.5"
      ["junk"] (1/2) (by decide) (by decide)
    exact h.trans (by decide)
  · have h := (C6_reannotate_cutoff_and_extension gEx false true 0).2.1 (by decide)
    exact h.trans (by decide)
  · exact (C6_reannotate_cutoff_and_extension gEx false true (1/5)).2.2 (by decide)

/-- C7: during re-annotation, every input line whose leading
whitespace-delimited token does not parse as a float is copied to the
output unchanged with the elapsed-time counter not advanced (the remaining
lines are processed at the same `time`), and, at whatever index such a line
occurs, it is reproduced verbatim; the embedded total function returns a
result for every input line (the parse failure is an `Option.none`, never
an exception). -/
theorem C7_nondelay_passthrough :
    (∀ (g : ATLImageGenerator) (vb st : Bool) (line : String)
        (rest : List String) (time : ℚ),
      read_leading_float line = none →
      (reannotateLines g vb st (line :: rest) time).1 =
        line :: (reannotateLines g vb st rest time).1) ∧
    (∀ (g : ATLImageGenerator) (vb st : Bool) (input : List String) (time : ℚ)
        (i : ℕ) (u : String),
      input[i]? = some u →
      read_leading_float u = none →
      i < (reannotateLines g vb st input time).1.length →
      ((reannotateLines g vb st input time).1)[i]? = some u) := by
  refine ⟨fun g vb st line rest time hp => ?_,
    fun g vb st input time i u hu hnone hlen =>
      reannotateLines_keep_nondelay g vb st input time i u hu hnone hlen⟩
  simp only [reannotateLines, hp]

/-- C7 (witness): a comment line is passed through unchanged at the same
elapsed time, and reproduced verbatim at its index. -/
theorem C7_nondelay_witness :
    (reannotateLines gEx false true ["# c", "0.5"] 0).1 =
      "# c" :: (reannotateLines gEx false true ["0.5"] 0).1 ∧
    ((reannotateLines gEx false true ["# c", "0.5"] 0).1)[0]? = some "# c" :=
  ⟨C7_nondelay_passthrough.1 gEx false true "# c" ["0.5"] 0 (by decide),
    C7_nondelay_passthrough.2 gEx false true ["# c", "0.5"] 0 0 "# c"
      (by decide) (by decide) (by decide)⟩

/-- C10 (witness): on the example generator, after a close-ensured block of
one loop iteration the next image drawn from the cycle is the open mouth. -/
theorem C10_cycle_witness :
    imageNext gEx (alternate_frames_for_duration gEx true (1/5) 0 (1/5)
      true false).2.2 = "open.png" :=
  (C10_cycle_positioned_open gEx true (1/5) 0 (1/5) false (by decide)).trans
    (by decide)

end Stlr

